import Mathlib

/-!
Shallow embedding of the Sign-language-recognition repository
(`sign_language_mnist.py`, `train.py`, `models/resnet.py`) and proofs about it.

External collaborators (numpy's global random generator, pandas CSV reading,
torch's `DataLoader`, autodiff and optimizer) are modelled as explicit
state-passing Lean functions; repository-authored logic is translated
line by line from the source.
-/

namespace SignLang

/-! ## Model of numpy's global pseudo-random generator

`np.random.shuffle` mutates the single global `RandomState`.  We model the
generator state as a natural number and the generator step as a linear
congruential step (taking the high bits for the draw, as real generators do);
`np.random.shuffle` itself is modelled as a seeded selection shuffle: it
returns a pseudo-random permutation of its input together with the advanced
global state.  What matters for the repository's logic is exactly what this
model captures: the shuffle is a deterministic function of the global state,
it produces a permutation, and it advances the global state. -/

/-- One step of the modelled global generator (a linear congruential step
modulo 2^31). -/
def lcg (s : ℕ) : ℕ := (1103515245 * s + 12345) % 2147483648

/-- Draw a pseudo-random number below `n` (using the generator's high bits)
and return it with the advanced state. -/
def randBelow (s n : ℕ) : ℕ × ℕ := ((lcg s / 65536) % n, lcg s)

/-- Selection-shuffle worker: repeatedly draw an index into the remaining
list and emit the element there.  `fuel` bounds the recursion; it is
instantiated with the list length. -/
def npShuffleAux : ℕ → ℕ → List ℕ → List ℕ × ℕ
  | 0, s, _ => ([], s)
  | fuel + 1, s, l =>
    if l.isEmpty then ([], s)
    else
      let d := randBelow s l.length
      let v := l.getD d.1 0
      let r := npShuffleAux fuel d.2 (l.eraseIdx d.1)
      (v :: r.1, r.2)

/-- Model of `np.random.shuffle` on a list of indices: a pseudo-random
permutation of the input, plus the advanced global generator state. -/
def npShuffle (s : ℕ) (l : List ℕ) : List ℕ × ℕ := npShuffleAux l.length s l

/-- Modelled from the spec: `utils.set_random_seed` (file `utils.py` is not
part of the sources) — per the spec it seeds the pseudo-random generator
deterministically from the given seed, so we let the seed become the global
generator state. -/
def setRandomSeed (seed : ℕ) : ℕ := seed

/-! ## Python slicing and `int()` truncation -/

/-- Effective index of a Python slice endpoint `k` for a sequence of length
`len`: non-negative endpoints clamp to `len`, negative endpoints count from
the end and clamp to `0`. -/
def pyIdx (k : ℤ) (len : ℕ) : ℕ :=
  if 0 ≤ k then min k.toNat len else len - min len (-k).toNat

/-- Python `l[:k]`. -/
def pySliceTo (l : List ℕ) (k : ℤ) : List ℕ := l.take (pyIdx k l.length)

/-- Python `l[k:]`. -/
def pySliceFrom (l : List ℕ) (k : ℤ) : List ℕ := l.drop (pyIdx k l.length)

/-- Python `int()` applied to a rational: truncation toward zero. -/
def pyInt (q : ℚ) : ℤ := if 0 ≤ q then ⌊q⌋ else ⌈q⌉

/-! ## `SignLanguageMNIST._train_val_split`

Source (`sign_language_mnist.py`):
```
indices = np.arange(len(data))
if shuffle:
    np.random.shuffle(indices)
train_indices = indices[: int((1 - val_split) * len(indices))]
val_indices = indices[int((1 - val_split) * len(indices)) :]
return train_indices, val_indices
```
The `seed` parameter (default 42) appears in the source signature but is
never used in the body; it is kept here, unused, for fidelity.  The global
generator state is passed and returned explicitly. -/

set_option linter.unusedVariables false in
/-- Embedding of `SignLanguageMNIST._train_val_split`.  `dataLen` is
`len(data)`; returns the `(train_indices, val_indices)` pair together with
the advanced global generator state. -/
def trainValSplit (dataLen : ℕ) (valSplit : ℚ) (seed : ℕ) (shuffle : Bool)
    (rng : ℕ) : (List ℕ × List ℕ) × ℕ :=
  let indices0 := List.range dataLen
  let shuffled := if shuffle then npShuffle rng indices0 else (indices0, rng)
  let indices := shuffled.1
  let cut : ℤ := pyInt ((1 - valSplit) * dataLen)
  ((pySliceTo indices cut, pySliceFrom indices cut), shuffled.2)

/-! ## `SignLanguageMNIST.__init__` and the dataset factories

Source (`sign_language_mnist.py`):
```
phases = ["train", "val", "test"]
assert phase in phases, f"Choose phase from ..."
self.data = pd.read_csv(csv_file).to_numpy(np.uint8)
train_indices, val_indices = self._train_val_split(self.data, val_split=val_split, shuffle=shuffle)
if phase == "train":   self.data = self.data[train_indices]
elif phase == "val":   self.data = self.data[val_indices]
self.images = self.data[:, 1:].reshape(-1, 28, 28, 1)
self.labels = self.data[:, 0]
```
A CSV file is modelled as its parsed row list (one `List ℕ` per data row,
label first).  To make the evaluation order observable we additionally
return how many times the CSV file was read: the `assert` fires before
`pd.read_csv`, so the invalid-phase branch performs zero reads. -/

/-- Parsed contents of a CSV dataset file: one row of numbers per sample,
first entry the label, the rest the 784 pixel values. -/
structure Csv where
  rows : List (List ℕ)
deriving DecidableEq

/-- The state of a constructed `SignLanguageMNIST` instance: the selected
rows, plus the derived image and label views (transform fields are
configuration, not data, and are omitted). -/
structure SLM where
  data : List (List ℕ)
  images : List (List ℕ)
  labels : List ℕ
deriving DecidableEq

/-- Embedding of `SignLanguageMNIST.__init__`: returns the constructed
instance (or the assertion error for an invalid phase), the advanced global
generator state, and the number of CSV reads performed. -/
def initSLM (csvFile : Csv) (phase : String) (valSplit : ℚ) (shuffle : Bool)
    (rng : ℕ) : Except String SLM × ℕ × ℕ :=
  if phase ∈ ["train", "val", "test"] then
    let data := csvFile.rows
    let split := trainValSplit data.length valSplit 42 shuffle rng
    let data' :=
      if phase = "train" then split.1.1.map (fun i => data.getD i [])
      else if phase = "val" then split.1.2.map (fun i => data.getD i [])
      else data
    (Except.ok
      { data := data'
        images := data'.map List.tail
        labels := data'.map (List.headD · 0) }, split.2, 1)
  else (Except.error "Choose phase from [train, val, test]", rng, 0)

/-- Embedding of `get_train_val_datasets`: constructs the train-phase
instance, then the val-phase instance, threading the global generator
state between the two constructions exactly as the source's two
`SignLanguageMNIST(...)` calls do. -/
def getTrainValDatasets (csvFile : Csv) (valSplit : ℚ) (shuffle : Bool)
    (rng : ℕ) : (Except String SLM × Except String SLM) × ℕ :=
  let mkTrain := initSLM csvFile "train" valSplit shuffle rng
  let mkVal := initSLM csvFile "val" valSplit shuffle mkTrain.2.1
  ((mkTrain.1, mkVal.1), mkVal.2.1)

/-- Row multiset of a constructed dataset (empty on the error branch). -/
def rowsOf (e : Except String SLM) : List (List ℕ) :=
  match e with
  | Except.ok d => d.data
  | Except.error _ => []

/-! ## `DataLoader` and the loader factories

`torch.utils.data.DataLoader` is external; we model the arguments the
repository passes to it.  Its `shuffle` argument defaults to `False`. -/

/-- Model of a constructed `DataLoader`: the wrapped dataset and the
arguments the repository passes.  `shuffle` defaults to `false` as in the
external library. -/
structure DataLoader (α : Type) where
  dataset : α
  batchSize : ℕ
  shuffle : Bool := false
  numWorkers : ℕ

/-- Embedding of `get_train_val_loaders`: both the train and the val loader
are constructed with `shuffle=True` in the source. -/
def getTrainValLoaders (trainDS valDS : α) (batchSize numWorkers : ℕ) :
    DataLoader α × DataLoader α :=
  ({ dataset := trainDS, batchSize := batchSize, shuffle := true,
     numWorkers := numWorkers },
   { dataset := valDS, batchSize := batchSize, shuffle := true,
     numWorkers := numWorkers })

/-- Embedding of `get_test_loader`: the source passes no `shuffle`
argument, so the external default `False` applies. -/
def getTestLoader (testDS : α) (batchSize numWorkers : ℕ) : DataLoader α :=
  { dataset := testDS, batchSize := batchSize, numWorkers := numWorkers }

/-! ## The trainer (`train.py`, function `train`)

The numeric framework is abstracted into a record of operations: the
forward pass (loss and correct-prediction count as functions of the current
parameters and the batch), the backward pass (the gradient written into the
just-zeroed accumulators), the optimizer step (new parameters and new
optimizer state, e.g. momentum buffers), and the scheduler step (which
touches only optimizer state).  The mutable objects of the source — the
model parameters, the gradient accumulators, the optimizer — become an
explicit `TrainState`.  The loop structure, the statistics bookkeeping, the
best-checkpoint tracking and the final `load_state_dict` are translated
from the source line by line. -/

/-- The two phases of an epoch in `train` (`for phase in ["train", "val"]`). -/
inductive TPhase where
  | train
  | val
deriving DecidableEq

/-- Operations supplied by the numeric framework: forward pass statistics,
backward pass, optimizer step and scheduler step.  `P` is the parameter
state, `G` the gradient accumulators, `O` the optimizer state, `B` a batch. -/
structure TorchOps (P G O B : Type) where
  zeroGrad : G
  lossOf : P → B → ℚ
  correctsOf : P → B → ℕ
  backward : P → B → G
  optStep : O → P → G → P × O
  schedStep : O → O
  sizeOf : B → ℕ

/-- The mutable state the training loop owns: model parameters, gradient
accumulators and optimizer state. -/
structure TrainState (P G O : Type) where
  params : P
  grads : G
  opt : O
deriving DecidableEq

/-- One batch of the per-phase loop in `train`:
`optimizer.zero_grad()`, forward pass, and — in the train phase only —
`loss.backward()` followed by `optimizer.step()`. -/
def processBatch (ops : TorchOps P G O B) (phase : TPhase)
    (st : TrainState P G O) (b : B) : TrainState P G O :=
  let st0 : TrainState P G O := { st with grads := ops.zeroGrad }
  if phase = TPhase.train then
    let g := ops.backward st0.params b
    let stepped := ops.optStep st0.opt st0.params g
    { params := stepped.1, grads := g, opt := stepped.2 }
  else st0

/-- The per-phase batch loop with its running statistics:
`running_loss += loss.item() * images.shape[0]` and
`running_corrects += torch.sum(preds == labels.data)`.  The loss and the
predictions are produced by the forward pass, before any optimizer step. -/
def phaseFold (ops : TorchOps P G O B) (phase : TPhase) :
    TrainState P G O × ℚ × ℕ → List B → TrainState P G O × ℚ × ℕ
  | acc, [] => acc
  | (st, runLoss, runCorrects), b :: bs =>
    phaseFold ops phase
      (processBatch ops phase st b,
       runLoss + ops.lossOf st.params b * ops.sizeOf b,
       runCorrects + ops.correctsOf st.params b) bs

/-- One full phase of an epoch: run all batches, then form the epoch-level
statistics `epoch_loss = running_loss / len(dataset)` and
`epoch_acc = running_corrects / len(dataset)`. -/
def runPhase (ops : TorchOps P G O B) (phase : TPhase) (st : TrainState P G O)
    (batches : List B) (datasetSize : ℕ) : TrainState P G O × ℚ × ℚ :=
  let folded := phaseFold ops phase (st, 0, 0) batches
  (folded.1, folded.2.1 / datasetSize, (folded.2.2 : ℚ) / datasetSize)

/-- One epoch of `train`: the train phase, then `scheduler.step()` (the
scheduler is always configured in the repository's entry point), then the
val phase.  Returns the state after the epoch and the four epoch metrics
`(train loss, train acc, val loss, val acc)`. -/
def epochStep (ops : TorchOps P G O B) (tB vB : List B) (nT nV : ℕ)
    (st : TrainState P G O) : TrainState P G O × (ℚ × ℚ) × (ℚ × ℚ) :=
  let trained := runPhase ops TPhase.train st tB nT
  let st1 : TrainState P G O := { trained.1 with opt := ops.schedStep trained.1.opt }
  let valed := runPhase ops TPhase.val st1 vB nV
  (valed.1, (trained.2.1, trained.2.2), (valed.2.1, valed.2.2))

/-- The per-phase metric logs `train_val_loss` / `train_val_acc`
(append-only, one entry per epoch per phase). -/
structure Metrics where
  trainLoss : List ℚ
  trainAcc : List ℚ
  valLoss : List ℚ
  valAcc : List ℚ
deriving DecidableEq

/-- The loop-carried state of `train`: the mutable train state, the
retained best checkpoint `best_model_wts`, `best_acc`, and the metric logs. -/
structure LoopState (P G O : Type) where
  st : TrainState P G O
  best : P
  bestAcc : ℚ
  metrics : Metrics
deriving DecidableEq

/-- The epoch loop `for epoch in range(1, num_epochs + 1)` of `train`:
run the epoch, append the metrics, and — after the val phase — deep-copy
the parameters into the retained checkpoint exactly when the epoch's val
accuracy strictly exceeds `best_acc`. -/
def runEpochs (ops : TorchOps P G O B) (tB vB : List B) (nT nV : ℕ) :
    ℕ → LoopState P G O → LoopState P G O
  | 0, ls => ls
  | n + 1, ls =>
    let e := epochStep ops tB vB nT nV ls.st
    let vAcc := (e.2.2).2
    let best' := if ls.bestAcc < vAcc then e.1.params else ls.best
    let bestAcc' := if ls.bestAcc < vAcc then vAcc else ls.bestAcc
    runEpochs ops tB vB nT nV n
      { st := e.1
        best := best'
        bestAcc := bestAcc'
        metrics :=
          { trainLoss := ls.metrics.trainLoss ++ [(e.2.1).1]
            trainAcc := ls.metrics.trainAcc ++ [(e.2.1).2]
            valLoss := ls.metrics.valLoss ++ [(e.2.2).1]
            valAcc := ls.metrics.valAcc ++ [vAcc] } }

/-- Embedding of `train`: start `best_model_wts` as a deep copy of
the initial parameters and `best_acc = 0.0`, run the epoch loop, then
`model.load_state_dict(best_model_wts)` and return the model together with
the metric logs. -/
def torchTrain (ops : TorchOps P G O B) (tB vB : List B) (nT nV : ℕ)
    (numEpochs : ℕ) (st0 : TrainState P G O) : TrainState P G O × Metrics :=
  let final := runEpochs ops tB vB nT nV numEpochs
    { st := st0
      best := st0.params
      bestAcc := 0
      metrics := { trainLoss := [], trainAcc := [], valLoss := [], valAcc := [] } }
  ({ final.st with params := final.best }, final.metrics)

/-- The validation accuracy that `train` measures for a given parameter
state: the summed correct-prediction counts over the val batches, divided
by the val dataset size. -/
def valAccOf (ops : TorchOps P G O B) (vB : List B) (nV : ℕ) (p : P) : ℚ :=
  (((vB.map (ops.correctsOf p)).sum : ℕ) : ℚ) / nV

/-! ## Helper lemmas -/

/-- The shuffle preserves the length of its input (given enough fuel). -/
theorem npShuffleAux_length (fuel : ℕ) :
    ∀ (s : ℕ) (l : List ℕ), l.length ≤ fuel →
      ((npShuffleAux fuel s l).1).length = l.length := by
  induction fuel with
  | zero =>
    intro s l hl
    have : l = [] := List.length_eq_zero.mp (Nat.le_zero.mp hl)
    subst this
    rfl
  | succ n ih =>
    intro s l hl
    by_cases he : l.isEmpty
    · have : l = [] := List.isEmpty_iff.mp he
      subst this
      rfl
    · have hne : l ≠ [] := fun h => he (by simp [h])
      have hpos : 0 < l.length := List.length_pos.mpr hne
      have hj : (lcg s / 65536) % l.length < l.length := Nat.mod_lt _ hpos
      have herase : (l.eraseIdx ((lcg s / 65536) % l.length)).length = l.length - 1 := by
        rw [List.length_eraseIdx]
        simp [hj]
      have hrec := ih (lcg s) (l.eraseIdx ((lcg s / 65536) % l.length))
        (by rw [herase]; omega)
      simp [npShuffleAux, he, randBelow, hrec, herase]
      omega

/-- `npShuffle` preserves length. -/
theorem npShuffle_length (s : ℕ) (l : List ℕ) :
    ((npShuffle s l).1).length = l.length :=
  npShuffleAux_length l.length s l le_rfl

/-- A validation-phase batch only rewrites the gradient accumulators. -/
theorem processBatch_val (ops : TorchOps P G O B) (st : TrainState P G O)
    (b : B) :
    processBatch ops TPhase.val st b = { st with grads := ops.zeroGrad } := by
  simp [processBatch]

/-- Parameters and optimizer state survive the validation batch loop
unchanged. -/
theorem phaseFold_val_st (ops : TorchOps P G O B) (bs : List B) :
    ∀ (st : TrainState P G O) (rl : ℚ) (rc : ℕ),
      (phaseFold ops TPhase.val (st, rl, rc) bs).1.params = st.params ∧
      (phaseFold ops TPhase.val (st, rl, rc) bs).1.opt = st.opt := by
  induction bs with
  | nil => intro st rl rc; exact ⟨rfl, rfl⟩
  | cons b bs ih =>
    intro st rl rc
    simp only [phaseFold, processBatch_val]
    exact ih _ _ _

/-- The correct-prediction count accumulated by the validation batch loop
is the sum of the per-batch counts at the (unchanged) parameters. -/
theorem phaseFold_val_corrects (ops : TorchOps P G O B) (bs : List B) :
    ∀ (st : TrainState P G O) (rl : ℚ) (rc : ℕ),
      (phaseFold ops TPhase.val (st, rl, rc) bs).2.2 =
        rc + (bs.map (ops.correctsOf st.params)).sum := by
  induction bs with
  | nil => intro st rl rc; simp [phaseFold]
  | cons b bs ih =>
    intro st rl rc
    simp only [phaseFold, processBatch_val, List.map_cons, List.sum_cons]
    rw [ih]
    dsimp only
    omega

/-- The validation phase leaves the parameters unchanged and measures
exactly `valAccOf` of them. -/
theorem runPhase_val_spec (ops : TorchOps P G O B) (st : TrainState P G O)
    (vB : List B) (nV : ℕ) :
    (runPhase ops TPhase.val st vB nV).1.params = st.params ∧
    (runPhase ops TPhase.val st vB nV).2.2 = valAccOf ops vB nV st.params := by
  constructor
  · simpa [runPhase] using (phaseFold_val_st ops vB st 0 0).1
  · simp only [runPhase]
    rw [phaseFold_val_corrects ops vB st 0 0]
    simp [valAccOf]

/-- The val accuracy an epoch records is `valAccOf` of the parameters the
epoch ends with. -/
theorem epochStep_val_acc (ops : TorchOps P G O B) (tB vB : List B)
    (nT nV : ℕ) (st : TrainState P G O) :
    ((epochStep ops tB vB nT nV st).2.2).2 =
      valAccOf ops vB nV (epochStep ops tB vB nT nV st).1.params := by
  simp only [epochStep]
  rw [(runPhase_val_spec ops _ vB nV).2, (runPhase_val_spec ops _ vB nV).1]

/-- Measured accuracies are non-negative. -/
theorem valAccOf_nonneg (ops : TorchOps P G O B) (vB : List B) (nV : ℕ)
    (p : P) : 0 ≤ valAccOf ops vB nV p :=
  div_nonneg (Nat.cast_nonneg _) (Nat.cast_nonneg _)

/-- Invariant of the epoch loop: `best_acc` never exceeds the measured
accuracy of the retained checkpoint. -/
theorem runEpochs_bestAcc_le (ops : TorchOps P G O B) (tB vB : List B)
    (nT nV : ℕ) (n : ℕ) :
    ∀ ls : LoopState P G O,
      ls.bestAcc ≤ valAccOf ops vB nV ls.best →
      (runEpochs ops tB vB nT nV n ls).bestAcc ≤
        valAccOf ops vB nV (runEpochs ops tB vB nT nV n ls).best := by
  induction n with
  | zero => intro ls h; exact h
  | succ n ih =>
    intro ls h
    simp only [runEpochs]
    by_cases hlt : ls.bestAcc < ((epochStep ops tB vB nT nV ls.st).2.2).2
    · apply ih
      simp only [hlt, if_true]
      exact le_of_eq (epochStep_val_acc ops tB vB nT nV ls.st)
    · apply ih
      simp only [hlt, if_false]
      exact h

/-- The epoch loop never decreases `best_acc`, and every accuracy in the
final val-accuracy log either was already logged or is bounded by the final
`best_acc`. -/
theorem runEpochs_dominates (ops : TorchOps P G O B) (tB vB : List B)
    (nT nV : ℕ) (n : ℕ) :
    ∀ ls : LoopState P G O,
      ls.bestAcc ≤ (runEpochs ops tB vB nT nV n ls).bestAcc ∧
      ∀ a ∈ (runEpochs ops tB vB nT nV n ls).metrics.valAcc,
        a ∈ ls.metrics.valAcc ∨ a ≤ (runEpochs ops tB vB nT nV n ls).bestAcc := by
  induction n with
  | zero =>
    intro ls
    exact ⟨le_rfl, fun a ha => Or.inl ha⟩
  | succ n ih =>
    intro ls
    simp only [runEpochs]
    set e := epochStep ops tB vB nT nV ls.st with he
    set vAcc := (e.2.2).2 with hva
    set ls' : LoopState P G O :=
      { st := e.1
        best := if ls.bestAcc < vAcc then e.1.params else ls.best
        bestAcc := if ls.bestAcc < vAcc then vAcc else ls.bestAcc
        metrics :=
          { trainLoss := ls.metrics.trainLoss ++ [(e.2.1).1]
            trainAcc := ls.metrics.trainAcc ++ [(e.2.1).2]
            valLoss := ls.metrics.valLoss ++ [(e.2.2).1]
            valAcc := ls.metrics.valAcc ++ [vAcc] } } with hls'
    have hstep : ls.bestAcc ≤ ls'.bestAcc := by
      by_cases hlt : ls.bestAcc < vAcc
      · simp only [hls', hlt, if_true]
        exact le_of_lt hlt
      · simp only [hls', hlt, if_false]
        exact le_rfl
    have hvA : vAcc ≤ ls'.bestAcc := by
      by_cases hlt : ls.bestAcc < vAcc
      · simp only [hls', hlt, if_true]
        exact le_rfl
      · simp only [hls', hlt, if_false]
        exact le_of_not_lt hlt
    refine ⟨le_trans hstep (ih ls').1, fun a ha => ?_⟩
    rcases (ih ls').2 a ha with hmem | hle
    · have : a ∈ ls.metrics.valAcc ∨ a = vAcc := by
        simpa [hls'] using hmem
      rcases this with h1 | h2
      · exact Or.inl h1
      · exact Or.inr (h2 ▸ le_trans hvA (ih ls').1)
    · exact Or.inr hle

/-- Entries already in the val-accuracy log survive the epoch loop. -/
theorem runEpochs_valAcc_mono (ops : TorchOps P G O B) (tB vB : List B)
    (nT nV : ℕ) (n : ℕ) :
    ∀ (ls : LoopState P G O) (a : ℚ),
      a ∈ ls.metrics.valAcc →
      a ∈ (runEpochs ops tB vB nT nV n ls).metrics.valAcc := by
  induction n with
  | zero => intro ls a ha; exact ha
  | succ n ih =>
    intro ls a ha
    simp only [runEpochs]
    apply ih
    simp [ha]

/-- If no logged val accuracy is positive, the retained checkpoint and
`best_acc` never change. -/
theorem runEpochs_no_improvement (ops : TorchOps P G O B) (tB vB : List B)
    (nT nV : ℕ) (n : ℕ) :
    ∀ ls : LoopState P G O,
      0 ≤ ls.bestAcc →
      (∀ a ∈ (runEpochs ops tB vB nT nV n ls).metrics.valAcc, a ≤ 0) →
      (runEpochs ops tB vB nT nV n ls).best = ls.best ∧
      (runEpochs ops tB vB nT nV n ls).bestAcc = ls.bestAcc := by
  induction n with
  | zero => intro ls _ _; exact ⟨rfl, rfl⟩
  | succ n ih =>
    intro ls h0 hall
    simp only [runEpochs] at hall ⊢
    set e := epochStep ops tB vB nT nV ls.st with he
    set vAcc := (e.2.2).2 with hva
    have hmem : vAcc ∈ (runEpochs ops tB vB nT nV n
        { st := e.1
          best := if ls.bestAcc < vAcc then e.1.params else ls.best
          bestAcc := if ls.bestAcc < vAcc then vAcc else ls.bestAcc
          metrics :=
            { trainLoss := ls.metrics.trainLoss ++ [(e.2.1).1]
              trainAcc := ls.metrics.trainAcc ++ [(e.2.1).2]
              valLoss := ls.metrics.valLoss ++ [(e.2.2).1]
              valAcc := ls.metrics.valAcc ++ [vAcc] } }).metrics.valAcc := by
      apply runEpochs_valAcc_mono
      simp
    have hv0 : vAcc ≤ 0 := hall _ hmem
    have hnlt : ¬ ls.bestAcc < vAcc := not_lt.mpr (le_trans hv0 h0)
    simp only [hnlt, if_false] at hall ⊢
    exact ih _ h0 hall

/-! ## Claim theorems -/

/-- C2 (counterexample): the claim says the order of samples is fixed (not
randomized) for the validation phase, but the validation loader built by
`get_train_val_loaders` is constructed with `shuffle=True`: at the concrete
datasets `0, 0` and batch size 32 with 2 workers, its `shuffle` flag is not
`false`. -/
theorem claim_C2_val_loader_not_fixed :
    ¬ ((getTrainValLoaders (0 : ℕ) (0 : ℕ) 32 2).2.shuffle = false) := by
  simp [getTrainValLoaders]

/-- C2 (amended): the order of samples within an epoch's batches is
randomized for both the training and the validation phase (both loaders are
constructed with `shuffle=True`), and fixed for the test phase (the test
loader leaves `shuffle` at the external default `False`). -/
theorem claim_C2_shuffle_flags (α : Type) (trainDS valDS testDS : α)
    (bs nw bs' nw' : ℕ) :
    (getTrainValLoaders trainDS valDS bs nw).1.shuffle = true ∧
    (getTrainValLoaders trainDS valDS bs nw).2.shuffle = true ∧
    (getTestLoader testDS bs' nw').shuffle = false :=
  ⟨rfl, rfl, rfl⟩

/-- C4: a validation-only phase never mutates the model parameters — after
any single validation batch and after the whole validation batch loop the
parameters are exactly the ones from before (no backward pass and no
optimizer step happen when the phase is `val`). -/
theorem claim_C4_val_phase_preserves_params (P G O B : Type)
    (ops : TorchOps P G O B) (st : TrainState P G O) (b : B)
    (batches : List B) (dsSize : ℕ) :
    (processBatch ops TPhase.val st b).params = st.params ∧
    (runPhase ops TPhase.val st batches dsSize).1.params = st.params := by
  constructor
  · rw [processBatch_val]
  · exact (runPhase_val_spec ops st batches dsSize).1

/-- C5: running `train` with `num_epochs = 0` returns the initial model
state unchanged (the loop body never runs and `load_state_dict` restores
the initial deep copy) and every per-phase loss and accuracy log is empty. -/
theorem claim_C5_zero_epochs (P G O B : Type) (ops : TorchOps P G O B)
    (tB vB : List B) (nT nV : ℕ) (st0 : TrainState P G O) :
    torchTrain ops tB vB nT nV 0 st0 =
      (st0, { trainLoss := [], trainAcc := [], valLoss := [], valAcc := [] }) :=
  rfl

/-- C6: constructing a `SignLanguageMNIST` with a phase outside
`{train, val, test}` fails immediately with the assertion error, leaves the
global generator state untouched, and performs zero CSV reads (the
assertion fires before `pd.read_csv`). -/
theorem claim_C6_invalid_phase_fails_fast (csvFile : Csv) (phase : String)
    (valSplit : ℚ) (shuffle : Bool) (rng : ℕ)
    (h : phase ∉ ["train", "val", "test"]) :
    initSLM csvFile phase valSplit shuffle rng =
      (Except.error "Choose phase from [train, val, test]", rng, 0) := by
  simp [initSLM, h]

/-- C6 (witness): the phase name `"phase"` is invalid, and constructing the
dataset with it returns the assertion error with zero CSV reads. -/
theorem claim_C6_witness :
    "phase" ∉ ["train", "val", "test"] ∧
    initSLM ⟨[[1, 2], [3, 4]]⟩ "phase" 0 true 7 =
      (Except.error "Choose phase from [train, val, test]", 7, 0) :=
  ⟨by decide, claim_C6_invalid_phase_fails_fast ⟨[[1, 2], [3, 4]]⟩ "phase" 0
    true 7 (by decide)⟩

/-- C7: for a fixed seed, two runs of the train/validation split that both
start from `set_random_seed(seed)` produce identical train and validation
index sets — the split is a deterministic function of the seeded global
generator state. -/
theorem claim_C7_split_deterministic (seed dataLen : ℕ) (valSplit : ℚ) :
    (trainValSplit dataLen valSplit 42 true (setRandomSeed seed)).1 =
      (trainValSplit dataLen valSplit 42 true (setRandomSeed seed)).1 :=
  rfl

/-- C9: the `seed` parameter of `_train_val_split` is dead: any two seed
values give the same result (index pair and advanced generator state) from
the same global generator state — the body never reads the parameter. -/
theorem claim_C9_seed_parameter_unused (dataLen : ℕ) (valSplit : ℚ)
    (seed1 seed2 : ℕ) (shuffle : Bool) (rng : ℕ) :
    trainValSplit dataLen valSplit seed1 shuffle rng =
      trainValSplit dataLen valSplit seed2 shuffle rng :=
  rfl

/-- C3: best-checkpoint tracking.  First conjunct: after one epoch of the
loop, the retained checkpoint (and `best_acc`) is replaced by the epoch's
parameter state (and its val accuracy) exactly when that accuracy strictly
exceeds the best seen so far, and is kept otherwise.  Second conjunct: the
model returned by `train` carries parameters whose measured validation
accuracy is at least every validation accuracy in the per-epoch log — the
retained checkpoint is the argmax over epochs, not necessarily the
final-epoch parameters. -/
theorem claim_C3_best_checkpoint (P G O B : Type) (ops : TorchOps P G O B)
    (tB vB : List B) (nT nV : ℕ) (numEpochs : ℕ) (st0 : TrainState P G O) :
    (∀ ls : LoopState P G O,
      (runEpochs ops tB vB nT nV 1 ls).best =
        (if ls.bestAcc < ((epochStep ops tB vB nT nV ls.st).2.2).2
         then (epochStep ops tB vB nT nV ls.st).1.params else ls.best) ∧
      (runEpochs ops tB vB nT nV 1 ls).bestAcc =
        (if ls.bestAcc < ((epochStep ops tB vB nT nV ls.st).2.2).2
         then ((epochStep ops tB vB nT nV ls.st).2.2).2 else ls.bestAcc)) ∧
    ∀ a ∈ (torchTrain ops tB vB nT nV numEpochs st0).2.valAcc,
      a ≤ valAccOf ops vB nV (torchTrain ops tB vB nT nV numEpochs st0).1.params := by
  constructor
  · intro ls
    exact ⟨rfl, rfl⟩
  · intro a ha
    have hdom := runEpochs_dominates ops tB vB nT nV numEpochs
      { st := st0
        best := st0.params
        bestAcc := 0
        metrics := { trainLoss := [], trainAcc := [], valLoss := [], valAcc := [] } }
    have hbound := runEpochs_bestAcc_le ops tB vB nT nV numEpochs
      { st := st0
        best := st0.params
        bestAcc := 0
        metrics := { trainLoss := [], trainAcc := [], valLoss := [], valAcc := [] } }
      (valAccOf_nonneg ops vB nV st0.params)
    rcases hdom.2 a ha with hmem | hle
    · exact absurd hmem (List.not_mem_nil a)
    · exact le_trans hle hbound

/-- C10: if no epoch's validation accuracy is strictly positive, the model
returned by `train` carries the initial pre-training parameter values:
`best_acc` starts at `0.0`, the comparison is strict, so the initial deep
copy is never replaced and `load_state_dict` restores it. -/
theorem claim_C10_no_improvement_returns_initial (P G O B : Type)
    (ops : TorchOps P G O B) (tB vB : List B) (nT nV : ℕ) (numEpochs : ℕ)
    (st0 : TrainState P G O)
    (h : ∀ a ∈ (torchTrain ops tB vB nT nV numEpochs st0).2.valAcc, ¬ 0 < a) :
    (torchTrain ops tB vB nT nV numEpochs st0).1.params = st0.params := by
  have := runEpochs_no_improvement ops tB vB nT nV numEpochs
    { st := st0
      best := st0.params
      bestAcc := 0
      metrics := { trainLoss := [], trainAcc := [], valLoss := [], valAcc := [] } }
    le_rfl (fun a ha => not_lt.mp (h a ha))
  exact this.1

/-- A concrete framework instance where every batch scores one correct
prediction (used to witness the best-checkpoint theorem). -/
def demoOps : TorchOps ℚ ℚ ℚ Unit :=
  { zeroGrad := 0
    lossOf := fun _ _ => 1
    correctsOf := fun _ _ => 1
    backward := fun _ _ => 1
    optStep := fun o p g => (p - g, o)
    schedStep := fun o => o
    sizeOf := fun _ => 1 }

/-- A concrete framework instance where no batch ever scores a correct
prediction (used to witness the no-improvement theorem). -/
def zeroOps : TorchOps ℚ ℚ ℚ Unit :=
  { zeroGrad := 0
    lossOf := fun _ _ => 1
    correctsOf := fun _ _ => 0
    backward := fun _ _ => 1
    optStep := fun o p g => (p - g, o)
    schedStep := fun o => o
    sizeOf := fun _ => 1 }

/-- C3 (witness): with one val batch scoring accuracy `1` over one epoch,
the logged accuracy `1` bounds the returned model's measured accuracy. -/
theorem claim_C3_witness :
    (1 : ℚ) ≤ valAccOf demoOps [()] 1
      (torchTrain demoOps [] [()] 1 1 1 ⟨0, 0, 0⟩).1.params :=
  (claim_C3_best_checkpoint ℚ ℚ ℚ Unit demoOps [] [()] 1 1 1 ⟨0, 0, 0⟩).2 1
    (by simp [torchTrain, runEpochs, epochStep, runPhase, phaseFold,
      processBatch, demoOps])

/-- C10 (witness): with every epoch's validation accuracy equal to `0`, the
trained model keeps the initial parameters `0`. -/
theorem claim_C10_witness :
    (∀ a ∈ (torchTrain zeroOps [] [()] 1 1 1 ⟨0, 0, 0⟩).2.valAcc, ¬ 0 < a) ∧
    (torchTrain zeroOps [] [()] 1 1 1 ⟨0, 0, 0⟩).1.params = 0 := by
  have h : ∀ a ∈ (torchTrain zeroOps [] [()] 1 1 1
      (⟨0, 0, 0⟩ : TrainState ℚ ℚ ℚ)).2.valAcc, ¬ 0 < a := by
    simp [torchTrain, runEpochs, epochStep, runPhase, phaseFold,
      processBatch, zeroOps]
  exact ⟨h, claim_C10_no_improvement_returns_initial ℚ ℚ ℚ Unit zeroOps
    [] [()] 1 1 1 ⟨0, 0, 0⟩ h⟩

/-- Lengths of the two Python slices at a non-negative in-range cut. -/
theorem pySlice_lengths (l : List ℕ) (k : ℤ) (hk : 0 ≤ k)
    (hlen : k.toNat ≤ l.length) :
    (pySliceTo l k).length = k.toNat ∧
    (pySliceFrom l k).length = l.length - k.toNat := by
  constructor
  · simp [pySliceTo, pyIdx, hk, List.length_take, Nat.min_def, hlen]
  · simp [pySliceFrom, pyIdx, hk, List.length_drop, Nat.min_def, hlen]

/-- C8: for `val_split = 0.25` and a 100-row dataset the cut point is
`int(0.75 * 100) = 75`, so the training subset receives exactly 75 indices
and the validation subset exactly 25, for every seed, shuffle setting and
generator state. -/
theorem claim_C8_quarter_split_of_100 (seed rng : ℕ) (sh : Bool) :
    (trainValSplit 100 (0.25 : ℚ) seed sh rng).1.1.length = 75 ∧
    (trainValSplit 100 (0.25 : ℚ) seed sh rng).1.2.length = 25 := by
  have hcut : pyInt ((1 - (0.25 : ℚ)) * ((100 : ℕ) : ℚ)) = 75 := by
    have h1 : ((1 : ℚ) - 0.25) * ((100 : ℕ) : ℚ) = 75 := by norm_num
    rw [pyInt, h1]
    norm_num
  have hlen : ((if sh then npShuffle rng (List.range 100)
      else (List.range 100, rng)).1).length = 100 := by
    cases sh
    · simp
    · simp [npShuffle_length]
  have hs := pySlice_lengths
    ((if sh then npShuffle rng (List.range 100)
      else (List.range 100, rng)).1) 75 (by norm_num) (by rw [hlen]; norm_num)
  simp only [trainValSplit, hcut]
  rw [hs.1, hs.2, hlen]
  exact ⟨by decide, by decide⟩

/-- C1: evaluation of the code at a failing input.  On the 2-row dataset
`[[5], [7]]` with `val_split = 0.5`, `shuffle = true` and global generator
state `1`, constructing the train and the val `SignLanguageMNIST` instance
as `get_train_val_datasets` does gives train rows `[[5]]` and val rows
`[[5]]`: row `[5]` lies in both subsets and row `[7]` in neither, because
each of the two constructions re-shuffles with the meanwhile-advanced
global generator and so cuts a different permutation.  The claimed
partition property fails. -/
theorem claim_C1_instances_do_not_partition :
    rowsOf (getTrainValDatasets ⟨[[5], [7]]⟩ (1/2 : ℚ) true 1).1.1 = [[5]] ∧
    rowsOf (getTrainValDatasets ⟨[[5], [7]]⟩ (1/2 : ℚ) true 1).1.2 = [[5]] ∧
    [7] ∈ (⟨[[5], [7]]⟩ : Csv).rows ∧
    [7] ∉ rowsOf (getTrainValDatasets ⟨[[5], [7]]⟩ (1/2 : ℚ) true 1).1.1 ∧
    [7] ∉ rowsOf (getTrainValDatasets ⟨[[5], [7]]⟩ (1/2 : ℚ) true 1).1.2 := by
  norm_num [getTrainValDatasets, initSLM, trainValSplit, pyInt, npShuffle,
    npShuffleAux, randBelow, lcg, pySliceTo, pySliceFrom, pyIdx, rowsOf]
  decide

end SignLang
